import Mathlib

/-!
Shallow embedding of the chess-tracker backend (src/backend/main.py).

The backend is a CRUD API over two SQLite tables (activities, mistakes).
We model the store as Lean lists of rows and each endpoint handler as a
pure function over those lists, translated clause by clause from the
SQL in main.py.

Modelling conventions, justified where they matter:
* Calendar dates are modelled as day numbers (days since 0000-03-01 of
  the proleptic Gregorian calendar, an `Int`).  The database stores
  dates as zero-padded ISO-8601 TEXT; for valid calendar dates the
  SQLite lexicographic TEXT comparison used by filters, MAX(date) and
  ORDER BY coincides with the numeric order of day numbers, so `≤` on
  day numbers is a faithful model of all date comparisons in main.py.
  `toDays`/`civilFromDays`/`isoOfDays` convert between civil dates,
  day numbers and the ISO strings.
* SQLite's `date(date, 'weekday 0', '-6 days')` (main.py lines 264,
  277-279, 295, 303) first advances the date forward to the next
  Sunday (weekday 0) unless the date already is a Sunday, then steps
  back 6 days.  `weekStartDays` below is exactly that computation on
  day numbers.
* SQL `GROUP BY` result order carries no contract (spec section 4.4
  says callers must not assume an order); the embedding enumerates
  group keys in first-occurrence order via `List.dedup`.
* Python `round(x, 2)` is round-half-to-even; we model it exactly on
  rationals (`roundTo2`).  For `minutes/60` an exact tie at the second
  decimal is impossible (50*minutes = 3*n has no solution with n ≡ 5
  mod 10), so the tie-breaking mode is never exercised and the float
  evaluation in Python agrees with the exact rational rounding.
-/

namespace ChessTracker

/-- Day number of a civil date: days since 0000-03-01 (proleptic
Gregorian), via the standard days-from-civil algorithm.  Day 0
(0000-03-01) is a Wednesday and 146097 (days per 400 years) is
divisible by 7, so weekdays are day numbers mod 7. -/
def toDays (y m d : Nat) : Int :=
  let y2 : Nat := if m ≤ 2 then y - 1 else y
  let mp : Nat := (m + 9) % 12
  let doy : Nat := (153 * mp + 2) / 5 + d - 1
  ((365 * y2 + y2 / 4 - y2 / 100 + y2 / 400 + doy : Nat) : Int)

/-- Inverse of `toDays`: civil (year, month, day) from a day number. -/
def civilFromDays (n : Nat) : Nat × Nat × Nat :=
  let era := n / 146097
  let doe := n % 146097
  let yoe := (doe - doe / 1460 + doe / 36524 - doe / 146096) / 365
  let y := yoe + era * 400
  let doy := doe - (365 * yoe + yoe / 4 - yoe / 100)
  let mp := (5 * doy + 2) / 153
  let d := doy - (153 * mp + 2) / 5 + 1
  let m := if mp < 10 then mp + 3 else mp - 9
  (if m ≤ 2 then y + 1 else y, m, d)

/-- Left-pad a numeral with zeros to the given width. -/
def pad (width n : Nat) : String :=
  let s := toString n
  String.mk (List.replicate (width - s.length) '0') ++ s

/-- Render a day number as a zero-padded ISO-8601 date string, the
format stored in the database's TEXT date column. -/
def isoOfDays (n : Int) : String :=
  let c := civilFromDays n.toNat
  pad 4 c.1 ++ "-" ++ pad 2 c.2.1 ++ "-" ++ pad 2 c.2.2

/-- Weekday of a day number, SQLite numbering: 0 = Sunday .. 6 =
Saturday.  Day 0 (0000-03-01) is a Wednesday, hence the +3. -/
def wd (n : Int) : Int := (n + 3) % 7

/-- The week-bucketing expression `date(date, 'weekday 0', '-6 days')`
from main.py (lines 264, 277-279, 295, 303) on day numbers: SQLite's
`weekday 0` modifier advances to the next Sunday unless the date is
already a Sunday, and `-6 days` then steps back six days. -/
def weekStartDays (n : Int) : Int := n + (7 - (n + 3) % 7) % 7 - 6

/-- One row of the `activities` table (see ActivityBase / the
activities schema).  `date` is a day number, see the header note;
`created_at` is kept as an opaque string. -/
structure ActivityRow where
  id : Nat
  date : Int
  week : Int
  category : String
  minutes : Int
  details : Option String
  created_at : String
deriving DecidableEq

/-- One row of the `mistakes` table (see MistakeBase and the schema in
migrate_mistakes.py).  The `date` TEXT column is kept as a string:
no arithmetic is ever done on mistake dates, only ordering. -/
structure MistakeRow where
  id : Nat
  date : String
  game_type : Option String
  time_control : Option String
  opponent_name : Option String
  opponent_rating : Option Int
  result : Option String
  move_number : Option Int
  mistake_category : Option String
  cause : Option String
  fix : Option String
  training : Option String
  url : Option String
  annotations : Option String
  created_at : String
deriving DecidableEq

end ChessTracker

namespace ChessTracker

/-! Listing endpoints: GET /activities (main.py 171-207) and
GET /mistakes (main.py 70-87). -/

/-- Python truthiness of the optional `category` query parameter:
`if category:` is false both for an absent parameter and for the
empty string (main.py line 184). -/
def truthy (s : Option String) : Bool :=
  match s with
  | none => false
  | some v => !(v == "")

/-- The WHERE clause built by get_activities (main.py 181-192): a
conjunction of the clauses whose parameter passes Python's truthiness
test.  Date bounds are inclusive (`date >= ?`, `date <= ?`). -/
def matchesFilter (category : Option String) (start_date end_date : Option Int)
    (a : ActivityRow) : Bool :=
  (if truthy category then a.category == category.getD "" else true)
  && (match start_date with | none => true | some d => decide (d ≤ a.date))
  && (match end_date with | none => true | some d => decide (a.date ≤ d))

/-- Listing order for activities, `ORDER BY date DESC, id DESC`
(main.py line 199). -/
def activityBefore (a b : ActivityRow) : Prop :=
  b.date < a.date ∨ (b.date = a.date ∧ b.id ≤ a.id)

instance : DecidableRel activityBefore := fun a b =>
  inferInstanceAs (Decidable (b.date < a.date ∨ (b.date = a.date ∧ b.id ≤ a.id)))

/-- Response shape of GET /activities. -/
structure ActivitiesResponse where
  activities : List ActivityRow
  total_count : Nat
  limit : Nat
  offset : Nat
deriving DecidableEq

/-- get_activities (main.py 171-207): count all rows matching the
filter, then return the page `LIMIT limit OFFSET offset` of the
matching rows ordered date DESC, id DESC. -/
def get_activities (store : List ActivityRow) (category : Option String)
    (start_date end_date : Option Int) (limit offset : Nat) : ActivitiesResponse :=
  let filtered := store.filter (matchesFilter category start_date end_date)
  { activities := ((List.insertionSort activityBefore filtered).drop offset).take limit
    total_count := filtered.length
    limit := limit
    offset := offset }

/-- Listing order for mistakes, `ORDER BY date DESC, id DESC`
(main.py line 79); the TEXT dates compare lexicographically. -/
def mistakeBefore (a b : MistakeRow) : Prop :=
  b.date < a.date ∨ (b.date = a.date ∧ b.id ≤ a.id)

instance : DecidableRel mistakeBefore := fun a b =>
  inferInstanceAs (Decidable (b.date < a.date ∨ (b.date = a.date ∧ b.id ≤ a.id)))

/-- Response shape of GET /mistakes. -/
structure MistakesResponse where
  mistakes : List MistakeRow
  total_count : Nat
  limit : Nat
  offset : Nat
deriving DecidableEq

/-- get_mistakes (main.py 70-87): `SELECT COUNT(*) FROM mistakes` for
total_count, then the page of all rows ordered date DESC, id DESC. -/
def get_mistakes (store : List MistakeRow) (limit offset : Nat) : MistakesResponse :=
  { mistakes := ((List.insertionSort mistakeBefore store).drop offset).take limit
    total_count := store.length
    limit := limit
    offset := offset }

/-! Delete endpoints: DELETE /activities/{id} (main.py 222-229) and
DELETE /mistakes/{id} (main.py 109-116). -/

/-- Outcome signalled by a delete endpoint: HTTP 200 with a message,
or the HTTPException(404) raised when `cursor.rowcount == 0`. -/
inductive DeleteOutcome where
  | deleted
  | notFound
deriving DecidableEq

/-- delete_activity (main.py 222-229): run `DELETE ... WHERE id = ?`;
if no row was affected raise 404 (the transaction is not committed and
nothing was removed), otherwise commit.  Returns the store contents
after the request together with the outcome. -/
def delete_activity (store : List ActivityRow) (activity_id : Nat) :
    List ActivityRow × DeleteOutcome :=
  let remaining := store.filter (fun a => a.id != activity_id)
  if remaining.length = store.length then (store, .notFound) else (remaining, .deleted)

/-- delete_mistake (main.py 109-116), same shape as delete_activity. -/
def delete_mistake (store : List MistakeRow) (mistake_id : Nat) :
    List MistakeRow × DeleteOutcome :=
  let remaining := store.filter (fun m => m.id != mistake_id)
  if remaining.length = store.length then (store, .notFound) else (remaining, .deleted)

/-! Mistake statistics: GET /mistakes/stats (main.py 118-143). -/

/-- The `GROUP BY mistake_category` query with
`WHERE mistake_category IS NOT NULL` (main.py 123-128): one (category,
count) pair per distinct non-null category.  Group keys are enumerated
in first-occurrence order; the spec gives no ordering contract. -/
def mistake_distribution (store : List MistakeRow) : List (String × Nat) :=
  ((store.filterMap (fun m => m.mistake_category)).dedup).map (fun c =>
    (c, (store.filter (fun m => m.mistake_category == some c)).length))

/-- The `GROUP BY result` query with `WHERE result IS NOT NULL`
(main.py 132-137). -/
def result_distribution (store : List MistakeRow) : List (String × Nat) :=
  ((store.filterMap (fun m => m.result)).dedup).map (fun c =>
    (c, (store.filter (fun m => m.result == some c)).length))

end ChessTracker

namespace ChessTracker

/-! CSV export endpoints: GET /export/mistakes (main.py 145-169) and
GET /export (main.py 231-248), both written with Python's csv.writer
(QUOTE_MINIMAL quoting, CRLF line terminator). -/

/-- A CSV field must be quoted when it contains a delimiter, a quote
or a line break (csv.QUOTE_MINIMAL). -/
def needsQuote (c : Char) : Bool := c = ',' || c = '"' || c = '\n' || c = '\r'

/-- Double an embedded quote character, csv-style. -/
def escapeChar (c : Char) : List Char := if c = '"' then ['"', '"'] else [c]

/-- Render one CSV field with csv.writer's minimal quoting. -/
def csvField (s : String) : String :=
  if s.data.any needsQuote then
    String.mk ('"' :: (s.data.map escapeChar).flatten ++ ['"'])
  else s

/-- Join rendered fields with commas. -/
def csvJoin : List String → String
  | [] => ""
  | [f] => f
  | f :: rest => f ++ "," ++ csvJoin rest

/-- One csv.writer row: comma-joined fields plus the default CRLF
line terminator. -/
def csvLine (fields : List String) : String := csvJoin (fields.map csvField) ++ "\r\n"

/-- A nullable text column as csv.writer renders it: None becomes the
empty field. -/
def optField : Option String → String
  | none => ""
  | some s => s

/-- A nullable integer column as csv.writer renders it. -/
def optIntField : Option Int → String
  | none => ""
  | some n => toString n

/-- The column names of the mistakes table in schema order
(migrate_mistakes.py 56-74), which is what `cursor.description` yields
for `SELECT * FROM mistakes`. -/
def mistakeColumns : List String :=
  ["id", "date", "game_type", "time_control", "opponent_name", "opponent_rating",
   "result", "move_number", "mistake_category", "cause", "fix", "training",
   "url", "annotations", "created_at"]

/-- One exported mistake row, every stored column in schema order. -/
def mistakeCsvRow (m : MistakeRow) : String :=
  csvLine [toString m.id, m.date, optField m.game_type, optField m.time_control,
    optField m.opponent_name, optIntField m.opponent_rating, optField m.result,
    optIntField m.move_number, optField m.mistake_category, optField m.cause,
    optField m.fix, optField m.training, optField m.url, optField m.annotations,
    m.created_at]

/-- export_mistakes (main.py 145-169): full scan ordered date DESC;
an empty result returns an empty body before any header is written
(`if not rows: return StreamingResponse(io.StringIO(), ...)`),
otherwise the data-driven header row followed by the data rows. -/
def export_mistakes (store : List MistakeRow) : String :=
  let rows := List.insertionSort (fun a b => b.date ≤ a.date) store
  if rows.isEmpty then ""
  else csvLine mistakeColumns ++ (rows.map mistakeCsvRow).foldr (· ++ ·) ""

/-- One exported activity row: the fixed 5-column subset
date, week, category, minutes, details (main.py 234). -/
def activityCsvRow (a : ActivityRow) : String :=
  csvLine [isoOfDays a.date, toString a.week, a.category, toString a.minutes,
    optField a.details]

/-- export_activities (main.py 231-248): the fixed header
Date,Week,Category,Minutes,Details is written unconditionally, then
one row per activity ordered date DESC. -/
def export_activities (store : List ActivityRow) : String :=
  let rows := List.insertionSort (fun a b => b.date ≤ a.date) store
  csvLine ["Date", "Week", "Category", "Minutes", "Details"] ++
    (rows.map activityCsvRow).foldr (· ++ ·) ""

end ChessTracker

namespace ChessTracker

/-! Statistics endpoint: GET /stats/summary (main.py 250-313). -/

/-- The week bucket of an activity row: the SQL expression
`date(date, 'weekday 0', '-6 days')` applied to its date. -/
def weekOf (a : ActivityRow) : Int := weekStartDays a.date

/-- The distinct week buckets present in the store
(`SELECT DISTINCT date(date, 'weekday 0', '-6 days') ...`). -/
def weeksOf (store : List ActivityRow) : List Int := (store.map weekOf).dedup

/-- The distinct week buckets in descending order
(`ORDER BY week_start DESC`). -/
def weeksDesc (store : List ActivityRow) : List Int :=
  List.insertionSort (fun a b => b ≤ a) (weeksOf store)

/-- The kept weeks: `LIMIT 12` most recent buckets, then
`weeks.reverse()` into ascending order (main.py 267-271). -/
def keptWeeks (store : List ActivityRow) : List Int := ((weeksDesc store).take 12).reverse

/-- `SUM(minutes)` of one (week bucket, category) group
(main.py 276-281). -/
def weekCatSum (store : List ActivityRow) (w : Int) (c : String) : Int :=
  ((store.filter (fun a => weekOf a == w && a.category == c)).map (fun a => a.minutes)).sum

/-- The pivoted fields of one weekly_progress row: one (category, sum)
pair per category present in that week, in first-occurrence order
(the dict built in main.py 285-291). -/
def rowCats (store : List ActivityRow) (w : Int) : List (String × Int) :=
  (((store.filter (fun a => weekOf a == w)).map (fun a => a.category)).dedup).map
    (fun c => (c, weekCatSum store w c))

/-- `SELECT category, SUM(minutes) ... GROUP BY category`
(main.py 255-260), group keys in first-occurrence order. -/
def categoryDistribution (store : List ActivityRow) : List (String × Int) :=
  ((store.map (fun a => a.category)).dedup).map (fun c =>
    (c, ((store.filter (fun a => a.category == c)).map (fun a => a.minutes)).sum))

/-- `SELECT MAX(date) FROM activities`: None on an empty table. -/
def maxDate? : List ActivityRow → Option Int
  | [] => none
  | a :: rest =>
      some (match maxDate? rest with
            | none => a.date
            | some m => max a.date m)

/-- `SELECT SUM(minutes) ... WHERE date(date, 'weekday 0', '-6 days') = ?`
(main.py 301-304); the Python `row[0] if row and row[0] else 0` maps
both NULL and 0 to 0, which the plain sum already yields. -/
def weekMinutes (store : List ActivityRow) (w : Int) : Int :=
  ((store.filter (fun a => weekOf a == w)).map (fun a => a.minutes)).sum

/-- Floor of a rational, computed on its normalized numerator and
positive denominator. -/
def ratFloor (q : ℚ) : Int := q.num / (q.den : Int)

/-- Round-half-to-even to the nearest integer, Python's default
rounding for `round`. -/
def roundHalfEven (q : ℚ) : Int :=
  let f := ratFloor q
  let r := q - (f : ℚ)
  if r < 1/2 then f
  else if (1/2 : ℚ) < r then f + 1
  else if f % 2 = 0 then f else f + 1

/-- Python's `round(x, 2)` on exact rationals. -/
def roundTo2 (q : ℚ) : ℚ := (roundHalfEven (q * 100) : ℚ) / 100

/-- Response shape of GET /stats/summary. -/
structure SummaryResponse where
  category_distribution : List (String × Int)
  weekly_progress : List (Int × List (String × Int))
  current_week_total_hours : ℚ
  current_week_start : Option Int

/-- get_summary (main.py 250-313): category totals, the 12-week pivot,
and the data-relative current week (bucket of MAX(date)) with its
total hours `round(current_week_minutes / 60, 2)`. -/
def get_summary (store : List ActivityRow) : SummaryResponse :=
  let cws := (maxDate? store).map weekStartDays
  let cwm : Int := match cws with
                   | none => 0
                   | some w => weekMinutes store w
  { category_distribution := categoryDistribution store
    weekly_progress := (keptWeeks store).map (fun w => (w, rowCats store w))
    current_week_total_hours := roundTo2 ((cwm : ℚ) / 60)
    current_week_start := cws }

end ChessTracker

namespace ChessTracker

/-! Create endpoint for activities: POST /activities (main.py 209-220)
behind pydantic validation of ActivityCreate (main.py 24-32). -/

/-- A raw JSON create payload for POST /activities, field by field:
`none` stands for an absent field.  Values already carry the declared
pydantic types; pydantic rejects other shapes as type errors, which
the embedding's typing absorbs. -/
structure RawActivityPayload where
  date : Option String
  week : Option Int
  category : Option String
  minutes : Option Int
  details : Option String
deriving DecidableEq

/-- The single 422-style rejection pydantic produces for a payload
that does not satisfy the ActivityCreate schema. -/
inductive PayloadError where
  | validationError
deriving DecidableEq

/-- A validated ActivityCreate body (main.py 24-32): date, week,
category and minutes are required, details is optional with default
None.  No constraint beyond presence and type is declared: the model
fields are plain `str` and `int`. -/
structure ActivityCreateBody where
  date : String
  week : Int
  category : String
  minutes : Int
  details : Option String
deriving DecidableEq

/-- Pydantic validation of ActivityCreate: succeeds exactly when every
required field is present. -/
def validateActivityCreate (p : RawActivityPayload) :
    Except PayloadError ActivityCreateBody :=
  match p.date, p.week, p.category, p.minutes with
  | some d, some w, some c, some m => .ok ⟨d, w, c, m, p.details⟩
  | _, _, _, _ => .error .validationError

/-- A persisted activity row as the INSERT stores it: every submitted
field verbatim, plus the assigned id.  The date string is stored
unparsed; SQLite TEXT columns accept any string. -/
structure PersistedActivity where
  id : Nat
  date : String
  week : Int
  category : String
  minutes : Int
  details : Option String
deriving DecidableEq

/-- The autoincrement id the INSERT assigns. -/
def nextId (store : List PersistedActivity) : Nat :=
  (store.map (fun a => a.id)).foldr max 0 + 1

/-- create_activity (main.py 209-220): if pydantic validation fails
the handler never runs and the store is untouched; otherwise the row
is inserted verbatim and echoed back.  Returns the store contents
after the request together with the response. -/
def create_activity (store : List PersistedActivity) (p : RawActivityPayload) :
    List PersistedActivity × Except PayloadError PersistedActivity :=
  match validateActivityCreate p with
  | .error e => (store, .error e)
  | .ok a =>
      let row : PersistedActivity := ⟨nextId store, a.date, a.week, a.category, a.minutes, a.details⟩
      (store ++ [row], .ok row)

end ChessTracker

namespace ChessTracker

/-- Two activities in the week of Monday 2026-01-05: the scenario
store of spec section 8 (30 min and 45 min of "Tactics", dated
2026-01-05 and 2026-01-10). -/
def demoStore : List ActivityRow :=
  [⟨1, toDays 2026 1 5, 2, "Tactics", 30, none, "t1"⟩,
   ⟨2, toDays 2026 1 10, 2, "Tactics", 45, none, "t2"⟩]

/-- C1: the spec says `week_start(D)` is the Sunday on or before D and
that activities dated 2026-01-05 and 2026-01-10 bucket to 2026-01-04.
The bucketing expression the code actually runs lands both dates on
Monday 2026-01-05 instead: it maps 2026-01-05 to itself (a Monday,
weekday 1, not a Sunday), 2026-01-04 is the Sunday the spec expects,
and the weekly_progress row for the scenario store carries week_start
2026-01-05 with the Tactics total 75. -/
theorem week_bucket_is_monday_not_sunday :
    weekStartDays (toDays 2026 1 5) = toDays 2026 1 5
  ∧ weekStartDays (toDays 2026 1 10) = toDays 2026 1 5
  ∧ wd (toDays 2026 1 4) = 0
  ∧ wd (weekStartDays (toDays 2026 1 5)) = 1
  ∧ toDays 2026 1 5 ≠ toDays 2026 1 4
  ∧ isoOfDays (weekStartDays (toDays 2026 1 5)) = "2026-01-05"
  ∧ isoOfDays (toDays 2026 1 4) = "2026-01-04"
  ∧ (get_summary demoStore).weekly_progress = [(toDays 2026 1 5, [("Tactics", 75)])] := by
  decide

/-- C9: the week-bucketing function the implementation applies is
idempotent on every day number. -/
theorem week_start_idempotent (n : Int) :
    weekStartDays (weekStartDays n) = weekStartDays n := by
  unfold weekStartDays
  omega

/-- C3: total_count equals the number of rows matching the filter in
the whole store and is therefore invariant under limit and offset,
for GET /activities and for GET /mistakes alike. -/
theorem total_count_independent_of_page (astore : List ActivityRow)
    (category : Option String) (start_date end_date : Option Int)
    (l1 o1 l2 o2 : Nat) (mstore : List MistakeRow) :
    (get_activities astore category start_date end_date l1 o1).total_count
      = (astore.filter (matchesFilter category start_date end_date)).length
  ∧ (get_activities astore category start_date end_date l1 o1).total_count
      = (get_activities astore category start_date end_date l2 o2).total_count
  ∧ (get_mistakes mstore l1 o1).total_count = mstore.length
  ∧ (get_mistakes mstore l1 o1).total_count = (get_mistakes mstore l2 o2).total_count :=
  ⟨rfl, rfl, rfl, rfl⟩

/-- C10: an empty-string category parameter fails Python's truthiness
test just like an absent one, so GET /activities answers identically
for the two. -/
theorem empty_category_same_as_absent (store : List ActivityRow)
    (start_date end_date : Option Int) (limit offset : Nat) :
    get_activities store (some "") start_date end_date limit offset
      = get_activities store none start_date end_date limit offset := rfl

/-- C7: on an empty store the mistake export returns a zero-byte body
(no header), while the activity export still returns exactly its fixed
header line. -/
theorem export_empty_store_bodies :
    export_mistakes [] = ""
  ∧ export_activities [] = "Date,Week,Category,Minutes,Details\r\n" := by
  decide

end ChessTracker

namespace ChessTracker

/-- Filtering a list on an id mismatch keeps it intact when no element
carries that id. -/
theorem filter_bne_eq_self {α : Type} (f : α → Nat) (i : Nat) (l : List α)
    (h : ∀ a ∈ l, f a ≠ i) : l.filter (fun a => f a != i) = l :=
  List.filter_eq_self.mpr (fun a ha => by simpa using h a ha)

/-- If the id-mismatch filter removed nothing, no element carried the
id in the first place. -/
theorem forall_ne_of_filter_bne_length {α : Type} (f : α → Nat) (i : Nat) (l : List α)
    (h : (l.filter (fun a => f a != i)).length = l.length) : ∀ a ∈ l, f a ≠ i :=
  fun a ha => by simpa using List.filter_length_eq_length.mp h a ha

/-- After delete_activity runs, no surviving row carries the deleted
id, whichever branch was taken. -/
theorem delete_activity_clears_id (store : List ActivityRow) (activity_id : Nat) :
    ∀ a ∈ (delete_activity store activity_id).1, a.id ≠ activity_id := by
  unfold delete_activity
  by_cases h : (store.filter (fun a => a.id != activity_id)).length = store.length
  · rw [if_pos h]
    exact forall_ne_of_filter_bne_length (fun a => a.id) activity_id store h
  · rw [if_neg h]
    intro a ha
    simpa using List.of_mem_filter ha

/-- Mistake-side twin of delete_activity_clears_id. -/
theorem delete_mistake_clears_id (store : List MistakeRow) (mistake_id : Nat) :
    ∀ m ∈ (delete_mistake store mistake_id).1, m.id ≠ mistake_id := by
  unfold delete_mistake
  by_cases h : (store.filter (fun m => m.id != mistake_id)).length = store.length
  · rw [if_pos h]
    exact forall_ne_of_filter_bne_length (fun m => m.id) mistake_id store h
  · rw [if_neg h]
    intro m hm
    simpa using List.of_mem_filter hm

/-- Deleting an absent activity id signals NotFound and keeps the
store intact. -/
theorem delete_activity_absent (store : List ActivityRow) (activity_id : Nat)
    (h : ∀ a ∈ store, a.id ≠ activity_id) :
    delete_activity store activity_id = (store, .notFound) := by
  unfold delete_activity
  rw [filter_bne_eq_self (fun a => a.id) activity_id store h]
  simp

/-- Deleting an absent mistake id signals NotFound and keeps the store
intact. -/
theorem delete_mistake_absent (store : List MistakeRow) (mistake_id : Nat)
    (h : ∀ m ∈ store, m.id ≠ mistake_id) :
    delete_mistake store mistake_id = (store, .notFound) := by
  unfold delete_mistake
  rw [filter_bne_eq_self (fun m => m.id) mistake_id store h]
  simp

/-- C4: DELETE on an id absent from the store answers NotFound with
the store unchanged, for activities and mistakes alike; and a second
delete of a just-deleted id always answers NotFound, again leaving
the store as the first delete left it. -/
theorem delete_not_found_contract (astore : List ActivityRow) (aid : Nat)
    (mstore : List MistakeRow) (mid : Nat)
    (astore2 : List ActivityRow) (aid2 : Nat) (mstore2 : List MistakeRow) (mid2 : Nat)
    (ha : ∀ a ∈ astore, a.id ≠ aid) (hm : ∀ m ∈ mstore, m.id ≠ mid) :
    delete_activity astore aid = (astore, .notFound)
  ∧ delete_mistake mstore mid = (mstore, .notFound)
  ∧ delete_activity (delete_activity astore2 aid2).1 aid2
      = ((delete_activity astore2 aid2).1, .notFound)
  ∧ delete_mistake (delete_mistake mstore2 mid2).1 mid2
      = ((delete_mistake mstore2 mid2).1, .notFound) :=
  ⟨delete_activity_absent astore aid ha,
   delete_mistake_absent mstore mid hm,
   delete_activity_absent _ aid2 (delete_activity_clears_id astore2 aid2),
   delete_mistake_absent _ mid2 (delete_mistake_clears_id mstore2 mid2)⟩

/-- A concrete mistake row whose nullable fields are all null. -/
def demoMistakeNull : MistakeRow :=
  ⟨1, "2026-01-05", none, none, none, none, none, none, none, none, none, none,
   none, none, "t1"⟩

/-- A concrete mistake row with a category and a result. -/
def demoMistakeFull : MistakeRow :=
  ⟨2, "2026-01-07", some "blitz", some "5+0", some "opp", some 1500, some "loss",
   some 23, some "Blunder", some "missed it", some "look twice", some "tactics",
   none, none, "t2"⟩

/-- Witness for C4 at a concrete store: id 9 is absent from the
one-row stores, and the freshly-deleted id 1 yields NotFound on the
second delete. -/
theorem delete_not_found_contract_witness :
    delete_activity demoStore 9 = (demoStore, .notFound)
  ∧ delete_mistake [demoMistakeNull] 9 = ([demoMistakeNull], .notFound)
  ∧ delete_activity (delete_activity demoStore 1).1 1
      = ((delete_activity demoStore 1).1, .notFound)
  ∧ delete_mistake (delete_mistake [demoMistakeNull] 1).1 1
      = ((delete_mistake [demoMistakeNull] 1).1, .notFound) :=
  delete_not_found_contract demoStore 9 [demoMistakeNull] 9 demoStore 1 [demoMistakeNull] 1
    (by decide) (by decide)

end ChessTracker

namespace ChessTracker

/-- BEq on options never equates none with some. -/
theorem none_beq_some_eq_false {α : Type} [BEq α] (a : α) :
    ((none : Option α) == some a) = false := rfl

/-- C6: a mistake whose mistake_category is null is excluded entirely
from mistake_distribution, and one whose result is null from
result_distribution, while GET /mistakes still counts the row in
total_count. -/
theorem null_fields_excluded_from_distributions (store : List MistakeRow)
    (m : MistakeRow) (limit offset : Nat)
    (hc : m.mistake_category = none) (hr : m.result = none) :
    mistake_distribution (m :: store) = mistake_distribution store
  ∧ result_distribution (m :: store) = result_distribution store
  ∧ (get_mistakes (m :: store) limit offset).total_count
      = (get_mistakes store limit offset).total_count + 1 := by
  refine ⟨?_, ?_, rfl⟩
  · unfold mistake_distribution
    simp [List.filterMap_cons, List.filter_cons, hc, none_beq_some_eq_false]
  · unfold result_distribution
    simp [List.filterMap_cons, List.filter_cons, hr, none_beq_some_eq_false]

/-- Witness for C6: prepending the all-null mistake to a one-row store
changes neither distribution but raises total_count by one. -/
theorem null_fields_excluded_witness :
    mistake_distribution (demoMistakeNull :: [demoMistakeFull])
      = mistake_distribution [demoMistakeFull]
  ∧ result_distribution (demoMistakeNull :: [demoMistakeFull])
      = result_distribution [demoMistakeFull]
  ∧ (get_mistakes (demoMistakeNull :: [demoMistakeFull]) 20 0).total_count
      = (get_mistakes [demoMistakeFull] 20 0).total_count + 1 :=
  null_fields_excluded_from_distributions [demoMistakeFull] demoMistakeNull 20 0
    (by decide) (by decide)

/-- C8 counterexample: the spec's invariant (minutes ≥ 0, valid
calendar date) is not enforced by ActivityCreate, whose fields are
plain `str`/`int`.  A payload with minutes = -5 and the non-date
string 2026-02-30 passes validation and its row reaches the store. -/
theorem invalid_payload_reaches_store :
    (-5 : Int) < 0
  ∧ create_activity [] ⟨some "2026-02-30", some 2, some "Tactics", some (-5), none⟩
      = ([⟨1, "2026-02-30", 2, "Tactics", -5, none⟩],
         .ok ⟨1, "2026-02-30", 2, "Tactics", -5, none⟩) :=
  ⟨by decide, rfl⟩

/-- C8 amended: pydantic rejects a create payload exactly when a
required field (date, week, category, minutes) is missing, leaving the
store unchanged; any payload with all required fields present is
accepted and stored verbatim, with no check on the sign of minutes or
the validity of the date string. -/
theorem create_checks_presence_not_invariant (store : List PersistedActivity)
    (p : RawActivityPayload) :
    ((p.date = none ∨ p.week = none ∨ p.category = none ∨ p.minutes = none) →
        create_activity store p = (store, .error .validationError))
  ∧ (∀ d w c mi, p.date = some d → p.week = some w → p.category = some c →
        p.minutes = some mi →
        create_activity store p
          = (store ++ [⟨nextId store, d, w, c, mi, p.details⟩],
             .ok ⟨nextId store, d, w, c, mi, p.details⟩)) := by
  obtain ⟨pd, pw, pc, pm, pdet⟩ := p
  constructor
  · intro h
    cases pd <;> cases pw <;> cases pc <;> cases pm <;>
      simp_all [create_activity, validateActivityCreate]
  · intro d w c mi h1 h2 h3 h4
    cases h1
    cases h2
    cases h3
    cases h4
    rfl

/-- Witness for C8's amended theorem: a payload missing its date is
rejected with the store untouched, and a complete payload (even with
negative minutes) is appended verbatim. -/
theorem create_checks_presence_witness :
    create_activity [] ⟨none, some 2, some "Tactics", some 30, none⟩
      = ([], .error .validationError)
  ∧ create_activity [] ⟨some "2026-01-05", some 2, some "Tactics", some (-30), none⟩
      = ([⟨1, "2026-01-05", 2, "Tactics", -30, none⟩],
         .ok ⟨1, "2026-01-05", 2, "Tactics", -30, none⟩) :=
  ⟨(create_checks_presence_not_invariant [] ⟨none, some 2, some "Tactics", some 30, none⟩).1
      (Or.inl rfl),
   (create_checks_presence_not_invariant []
      ⟨some "2026-01-05", some 2, some "Tactics", some (-30), none⟩).2
      "2026-01-05" 2 "Tactics" (-30) rfl rfl rfl rfl⟩

end ChessTracker

namespace ChessTracker

/-- SQL MAX over an empty table is NULL, and only then. -/
theorem maxDate?_eq_none_iff (store : List ActivityRow) :
    maxDate? store = none ↔ store = [] := by
  cases store with
  | nil => simp [maxDate?]
  | cons a rest => simp [maxDate?]

/-- Whatever maxDate? returns bounds every date in the store. -/
theorem maxDate?_is_ub (store : List ActivityRow) (mx : Int)
    (h : maxDate? store = some mx) : ∀ b ∈ store, b.date ≤ mx := by
  induction store generalizing mx with
  | nil => simp
  | cons a rest ih =>
      intro b hb
      cases hml : maxDate? rest with
      | none =>
          simp [maxDate?, hml] at h
          rcases List.mem_cons.mp hb with rfl | hbr
          · exact le_of_eq h
          · rw [(maxDate?_eq_none_iff rest).mp hml] at hbr
            simp at hbr
      | some m =>
          simp [maxDate?, hml] at h
          rcases List.mem_cons.mp hb with rfl | hbr
          · exact le_of_le_of_eq (le_max_left b.date m) h
          · exact le_trans (ih m hml b hbr) (le_of_le_of_eq (le_max_right a.date m) h)

/-- Whatever maxDate? returns is one of the stored dates. -/
theorem maxDate?_is_mem (store : List ActivityRow) (mx : Int)
    (h : maxDate? store = some mx) : ∃ b ∈ store, b.date = mx := by
  induction store generalizing mx with
  | nil => simp [maxDate?] at h
  | cons a rest ih =>
      cases hml : maxDate? rest with
      | none =>
          simp [maxDate?, hml] at h
          exact ⟨a, List.mem_cons_self a rest, h⟩
      | some m =>
          simp [maxDate?, hml] at h
          rcases max_choice a.date m with hm | hm
          · exact ⟨a, List.mem_cons_self a rest, by rw [← h, hm]⟩
          · obtain ⟨b, hb, hbd⟩ := ih m hml
            exact ⟨b, List.mem_cons_of_mem a hb, by rw [← h, hm, hbd]⟩

/-- maxDate? returns exactly the date of any row that dominates every
stored date. -/
theorem maxDate?_spec (store : List ActivityRow) (a : ActivityRow)
    (ha : a ∈ store) (hmax : ∀ b ∈ store, b.date ≤ a.date) :
    maxDate? store = some a.date := by
  cases hml : maxDate? store with
  | none =>
      rw [(maxDate?_eq_none_iff store).mp hml] at ha
      simp at ha
  | some mx =>
      obtain ⟨b, hb, hbd⟩ := maxDate?_is_mem store mx hml
      have h1 : mx ≤ a.date := hbd ▸ hmax b hb
      have h2 : a.date ≤ mx := maxDate?_is_ub store mx hml a ha
      rw [le_antisymm h1 h2]

/-- C5: get_summary's current_week_start is the week bucket of the
maximum stored date (data-relative, no clock is consulted), and
current_week_total_hours is the round-half-to-even 2-decimal rounding
of the minutes summed over that bucket, divided by 60. -/
theorem current_week_is_data_relative (store : List ActivityRow) (a : ActivityRow)
    (ha : a ∈ store) (hmax : ∀ b ∈ store, b.date ≤ a.date) :
    (get_summary store).current_week_start = some (weekStartDays a.date)
  ∧ (get_summary store).current_week_total_hours
      = roundTo2 ((Int.cast (((store.filter (fun b => weekOf b == weekStartDays a.date)).map
          (fun b => b.minutes)).sum) : ℚ) / 60) := by
  have h := maxDate?_spec store a ha hmax
  constructor
  · simp [get_summary, h]
  · simp only [get_summary, h, weekMinutes, Option.map_some]
    rfl

/-- Witness for C5 on the scenario store: the latest date is
2026-01-10, so the current week is its bucket and the hours are
computed from that bucket's 75 minutes. -/
theorem current_week_is_data_relative_witness :
    (get_summary demoStore).current_week_start
      = some (weekStartDays (toDays 2026 1 10))
  ∧ (get_summary demoStore).current_week_total_hours
      = roundTo2 ((Int.cast (((demoStore.filter
            (fun b => weekOf b == weekStartDays (toDays 2026 1 10))).map
          (fun b => b.minutes)).sum) : ℚ) / 60) :=
  current_week_is_data_relative demoStore
    ⟨2, toDays 2026 1 10, 2, "Tactics", 45, none, "t2"⟩ (by decide) (by decide)

end ChessTracker

namespace ChessTracker

instance : IsTotal Int (fun a b => b ≤ a) := ⟨fun a b => Or.symm (le_total a b)⟩

instance : IsTrans Int (fun a b => b ≤ a) := ⟨fun _ _ _ h1 h2 => le_trans h2 h1⟩

/-- The descending distinct week list is strictly descending: sorted
by the insertion sort and duplicate-free because it permutes a
deduplicated list. -/
theorem weeksDesc_strict (store : List ActivityRow) :
    List.Pairwise (fun a b : Int => b < a) (weeksDesc store) := by
  have hs : List.Pairwise (fun a b : Int => b ≤ a) (weeksDesc store) :=
    List.sorted_insertionSort _ _
  have hn : (weeksDesc store).Nodup :=
    ((List.perm_insertionSort _ _).nodup_iff).mpr (List.nodup_dedup _)
  exact (hs.and hn).imp (fun h => lt_of_le_of_ne h.1 (Ne.symm h.2))

/-- The kept weeks are strictly ascending. -/
theorem keptWeeks_pairwise (store : List ActivityRow) :
    List.Pairwise (fun a b : Int => a < b) (keptWeeks store) := by
  unfold keptWeeks
  rw [List.pairwise_reverse]
  exact (weeksDesc_strict store).sublist (List.take_sublist _ _)

/-- Every kept week is a week bucket of some stored activity. -/
theorem mem_keptWeeks (store : List ActivityRow) {w : Int}
    (hw : w ∈ keptWeeks store) : w ∈ weeksOf store := by
  unfold keptWeeks at hw
  rw [List.mem_reverse] at hw
  exact ((List.perm_insertionSort _ _).mem_iff).mp ((List.take_sublist _ _).subset hw)

/-- In a strictly descending list, the take-prefix is upward closed
among the list's members: anything larger than a kept element is kept. -/
theorem take_upward : ∀ (l : List Int) (k : Nat) (w w' : Int),
    List.Pairwise (fun a b : Int => b < a) l →
    w ∈ l.take k → w' ∈ l → w < w' → w' ∈ l.take k := by
  intro l
  induction l with
  | nil =>
      intro k w w' _ _ hw' _
      simp at hw'
  | cons x xs ih =>
      intro k w w' hs hw hw' hlt
      cases k with
      | zero => simp at hw
      | succ k =>
          rw [List.take_succ_cons] at hw ⊢
          rcases List.mem_cons.mp hw' with rfl | hw'xs
          · exact List.mem_cons_self _ _
          · have hxgt : w' < x := (List.pairwise_cons.mp hs).1 w' hw'xs
            rcases List.mem_cons.mp hw with rfl | hwtake
            · exact absurd (lt_trans hlt hxgt) (lt_irrefl w)
            · exact List.mem_cons_of_mem _
                (ih k w w' (List.pairwise_cons.mp hs).2 hwtake hw'xs hlt)

/-- "12 most recent": any week bucket present in the store and newer
than a kept week is itself kept. -/
theorem keptWeeks_upward (store : List ActivityRow) {w w' : Int}
    (hw : w ∈ keptWeeks store) (hw' : w' ∈ weeksOf store) (hlt : w < w') :
    w' ∈ keptWeeks store := by
  unfold keptWeeks at hw ⊢
  rw [List.mem_reverse] at hw ⊢
  exact take_upward (weeksDesc store) 12 w w' (weeksDesc_strict store) hw
    (((List.perm_insertionSort _ _).mem_iff).mpr hw') hlt

/-- The fields of a weekly row: (c, v) appears exactly when category c
has an activity in week w and v is that week's sum for c. -/
theorem mem_rowCats (store : List ActivityRow) (w : Int) (c : String) (v : Int) :
    (c, v) ∈ rowCats store w ↔
      ((∃ a ∈ store, weekOf a = w ∧ a.category = c) ∧ v = weekCatSum store w c) := by
  unfold rowCats
  rw [List.mem_map]
  constructor
  · rintro ⟨c', hc', hpair⟩
    injection hpair with h1 h2
    subst h1
    rw [List.mem_dedup, List.mem_map] at hc'
    obtain ⟨a, haf, hac⟩ := hc'
    obtain ⟨ha, haw⟩ := List.mem_filter.mp haf
    exact ⟨⟨a, ha, by simpa using haw, hac⟩, h2.symm⟩
  · rintro ⟨⟨a, ha, haw, hac⟩, rfl⟩
    refine ⟨c, ?_, rfl⟩
    rw [List.mem_dedup, List.mem_map]
    exact ⟨a, List.mem_filter.mpr ⟨ha, by simp [haw]⟩, hac⟩

/-- C2: the weekly_progress rows are strictly ascending by week_start,
number min(12, distinct weeks), carry only week buckets present in the
store, are upward closed among those buckets (so they are exactly the
12 most recent), and each row's fields list exactly the categories
active in that week with their minute sums, absent categories omitted. -/
theorem weekly_progress_contract (store : List ActivityRow) :
    List.Chain' (fun r s : Int × List (String × Int) => r.1 < s.1)
      (get_summary store).weekly_progress
  ∧ (get_summary store).weekly_progress.length = min 12 (weeksOf store).length
  ∧ (∀ r ∈ (get_summary store).weekly_progress, r.1 ∈ weeksOf store)
  ∧ (∀ r ∈ (get_summary store).weekly_progress, ∀ w' ∈ weeksOf store,
        r.1 < w' → ∃ s ∈ (get_summary store).weekly_progress, s.1 = w')
  ∧ (∀ r ∈ (get_summary store).weekly_progress, ∀ c v,
        ((c, v) ∈ r.2 ↔
          ((∃ a ∈ store, weekOf a = r.1 ∧ a.category = c)
            ∧ v = weekCatSum store r.1 c))) := by
  have hwp : (get_summary store).weekly_progress
      = (keptWeeks store).map (fun w => (w, rowCats store w)) := rfl
  refine ⟨?_, ?_, ?_, ?_, ?_⟩
  · rw [hwp]
    apply List.Pairwise.chain'
    rw [List.pairwise_map]
    exact keptWeeks_pairwise store
  · rw [hwp, List.length_map]
    unfold keptWeeks
    rw [List.length_reverse, List.length_take]
    congr 1
    exact (List.perm_insertionSort _ _).length_eq
  · intro r hr
    rw [hwp, List.mem_map] at hr
    obtain ⟨w, hw, rfl⟩ := hr
    exact mem_keptWeeks store hw
  · intro r hr w' hw' hlt
    rw [hwp, List.mem_map] at hr
    obtain ⟨w, hw, rfl⟩ := hr
    have hk : w' ∈ keptWeeks store := keptWeeks_upward store hw hw' hlt
    exact ⟨(w', rowCats store w'), by rw [hwp]; exact List.mem_map_of_mem _ hk, rfl⟩
  · intro r hr c v
    rw [hwp, List.mem_map] at hr
    obtain ⟨w, hw, rfl⟩ := hr
    exact mem_rowCats store w c v

/-- Witness for C2 at the scenario store. -/
theorem weekly_progress_contract_witness :
    List.Chain' (fun r s : Int × List (String × Int) => r.1 < s.1)
      (get_summary demoStore).weekly_progress
  ∧ (get_summary demoStore).weekly_progress.length = min 12 (weeksOf demoStore).length
  ∧ (∀ r ∈ (get_summary demoStore).weekly_progress, r.1 ∈ weeksOf demoStore)
  ∧ (∀ r ∈ (get_summary demoStore).weekly_progress, ∀ w' ∈ weeksOf demoStore,
        r.1 < w' → ∃ s ∈ (get_summary demoStore).weekly_progress, s.1 = w')
  ∧ (∀ r ∈ (get_summary demoStore).weekly_progress, ∀ c v,
        ((c, v) ∈ r.2 ↔
          ((∃ a ∈ demoStore, weekOf a = r.1 ∧ a.category = c)
            ∧ v = weekCatSum demoStore r.1 c))) :=
  weekly_progress_contract demoStore

end ChessTracker
